import Mathlib

/-!
A shallow embedding of the contact-book program in `src/exercise_1.py`.

Conventions of the embedding:
* Python strings are Lean `String` values; a character is a Unicode scalar.
  The regular-expression class `\d` of a `str` pattern matches every
  Unicode decimal digit (category Nd), embedded below through the table
  of Nd decades; explicit regex ranges such as `[1-9]` stay ASCII.
* `datetime` values produced by `strptime(_, "%d.%m.%Y")` always carry the
  time 00:00, so they are modelled as plain calendar dates `SimpleDate`.
  The reference moment `datetime.today()` is modelled at date granularity
  (midnight of the reference date) and passed as an explicit parameter.
  Comparison of datetimes and `timedelta(days=n)` arithmetic are modelled
  on the day number of a date (days in the proleptic Gregorian calendar).
* Python exceptions raised by a constructor or a query are modelled with
  `Except String`; the in-place mutation `Record.edit_phone`, whose
  exception leaves the record as it was, returns the post-state record
  together with an optional error message.
-/

/-- A calendar date, the payload of a Python `datetime` at midnight. -/
structure SimpleDate where
  year : Nat
  month : Nat
  day : Nat
deriving DecidableEq, Repr

/-- Gregorian leap-year rule, as used by Python `datetime`. -/
def isLeap (y : Nat) : Bool :=
  y % 4 == 0 && (y % 100 != 0 || y % 400 == 0)

/-- Number of days in a month, as enforced by the `datetime` constructor. -/
def daysInMonth (y m : Nat) : Nat :=
  if m = 2 then (if isLeap y then 29 else 28)
  else if m = 4 ∨ m = 6 ∨ m = 9 ∨ m = 11 then 30
  else 31

/-- The validity check of the `datetime(year, month, day)` constructor:
`MINYEAR = 1`, `MAXYEAR = 9999`, month in range, day within the month. -/
def isValidDate (y m d : Nat) : Bool :=
  decide (1 ≤ y) && decide (y ≤ 9999) &&
  decide (1 ≤ m) && decide (m ≤ 12) &&
  decide (1 ≤ d) && decide (d ≤ daysInMonth y m)

/-- Day count of a date in the proleptic Gregorian calendar (a shifted
rata-die formula over a March-based year).  Two `datetime` values compare,
and differ by a `timedelta`, exactly as their day numbers do. -/
def dayNumber (dt : SimpleDate) : Nat :=
  let y := if dt.month ≤ 2 then dt.year - 1 else dt.year
  let m := if dt.month ≤ 2 then dt.month + 12 else dt.month
  365 * y + y / 4 - y / 100 + y / 400 + (153 * (m - 3) + 2) / 5 + (dt.day - 1)

/-- `dt.replace(year := y)`: keep month and day, swap the year, revalidate
through the `datetime` constructor; raises `ValueError` when the new triple
is not a real date (for instance Feb-29 moved to a non-leap year). -/
def replaceYear (dt : SimpleDate) (y : Nat) : Except String SimpleDate :=
  if isValidDate y dt.month dt.day then
    Except.ok ⟨y, dt.month, dt.day⟩
  else
    Except.error "day is out of range for month"

/-- ASCII decimal digit, the model of the regex class `\d`. -/
def isAsciiDigit (c : Char) : Bool :=
  decide (48 ≤ c.toNat) && decide (c.toNat ≤ 57)

/-- Numeric value of an ASCII digit character. -/
def digitVal (c : Char) : Nat :=
  c.toNat - 48

/-- The ASCII digit character of a value below ten. -/
def digitChar (n : Nat) : Char :=
  Char.ofNat (48 + n)

/-- First code points of the decades of Unicode category Nd (Unicode 14,
as shipped with CPython 3.11): each start opens ten consecutive digits of
values 0 to 9.  The class `\d` of a Python `str` regex matches exactly
these characters. -/
def ndDecadeStarts : List Nat :=
  [0x30, 0x660, 0x6f0, 0x7c0, 0x966, 0x9e6, 0xa66, 0xae6, 0xb66, 0xbe6,
   0xc66, 0xce6, 0xd66, 0xde6, 0xe50, 0xed0, 0xf20, 0x1040, 0x1090, 0x17e0,
   0x1810, 0x1946, 0x19d0, 0x1a80, 0x1a90, 0x1b50, 0x1bb0, 0x1c40, 0x1c50,
   0xa620, 0xa8d0, 0xa900, 0xa9d0, 0xa9f0, 0xaa50, 0xabf0, 0xff10, 0x104a0,
   0x10d30, 0x11066, 0x110f0, 0x11136, 0x111d0, 0x112f0, 0x11450, 0x114d0,
   0x11650, 0x116c0, 0x11730, 0x118e0, 0x11950, 0x11c50, 0x11d50, 0x11da0,
   0x16a60, 0x16ac0, 0x16b50, 0x1d7ce, 0x1d7d8, 0x1d7e2, 0x1d7ec, 0x1d7f6,
   0x1e140, 0x1e2f0, 0x1e950, 0x1fbf0]

/-- The regex class `\d` of a Python `str` pattern: a Unicode decimal
digit (category Nd). -/
def isPyDigit (c : Char) : Bool :=
  ndDecadeStarts.any fun a => decide (a ≤ c.toNat) && decide (c.toNat ≤ a + 9)

/-- Decimal value of a Unicode digit, as computed by Python `int` on the
captured group. -/
def pyDigitVal (c : Char) : Nat :=
  match ndDecadeStarts.find? (fun a => decide (a ≤ c.toNat) && decide (c.toNat ≤ a + 9)) with
  | some a => c.toNat - a
  | none => 0

/-- `class Name(Field)`: an unvalidated text value. -/
structure Name where
  value : String
deriving DecidableEq, Repr

/-- `class Phone(Field)`: a string accepted by `Phone.__init__`. -/
structure Phone where
  value : String
deriving DecidableEq, Repr

/-- `class Birthday(Field)`: the parsed `datetime` stored by
`Birthday.__init__`. -/
structure Birthday where
  value : SimpleDate
deriving DecidableEq, Repr

/-- `Phone.__init__`: succeeds exactly when
`re.fullmatch(r"\d{10}", value)` does, that is when the string is ten
digit characters; otherwise raises
`ValueError("Phone number must be 10 digits.")`. -/
def makePhone (s : String) : Except String Phone :=
  if s.data.length == 10 && s.data.all isPyDigit then
    Except.ok ⟨s⟩
  else
    Except.error "Phone number must be 10 digits."

/-!
The embedding of `datetime.strptime(value, "%d.%m.%Y")`.

CPython compiles the format to the regular expression

  `(?P<d>3[01]|[12]\d|0[1-9]|[1-9]| [1-9])\.(?P<m>1[0-2]|0[1-9]|[1-9])\.(?P<Y>\d\d\d\d)`

matched at position 0 and required to consume the whole input, and then
feeds the captured numbers to the `datetime` constructor.  Each capture
group is embedded as the list of its alternatives in regex priority
order, each alternative paired with the remaining input; `List.findSome?`
over the candidates, with the failure of the continuation propagating to
the next candidate, implements the backtracking of the regex engine.
-/

/-- Candidate parses of the day group `3[01]|[12]\d|0[1-9]|[1-9]| [1-9]`,
in regex priority order, each with the rest of the input. -/
def dayGroup : List Char → List (Nat × List Char)
  | c1 :: c2 :: rest =>
      (if c1 = '3' ∧ (c2 = '0' ∨ c2 = '1') then [(30 + digitVal c2, rest)] else []) ++
      (if (c1 = '1' ∨ c1 = '2') ∧ isPyDigit c2 then
        [(10 * digitVal c1 + pyDigitVal c2, rest)] else []) ++
      (if c1 = '0' ∧ isAsciiDigit c2 ∧ c2 ≠ '0' then [(digitVal c2, rest)] else []) ++
      (if isAsciiDigit c1 ∧ c1 ≠ '0' then [(digitVal c1, c2 :: rest)] else []) ++
      (if c1 = ' ' ∧ isAsciiDigit c2 ∧ c2 ≠ '0' then [(digitVal c2, rest)] else [])
  | [c1] =>
      if isAsciiDigit c1 ∧ c1 ≠ '0' then [(digitVal c1, [])] else []
  | [] => []

/-- Candidate parses of the month group `1[0-2]|0[1-9]|[1-9]`, in regex
priority order, each with the rest of the input. -/
def monthGroup : List Char → List (Nat × List Char)
  | c1 :: c2 :: rest =>
      (if c1 = '1' ∧ (c2 = '0' ∨ c2 = '1' ∨ c2 = '2') then
        [(10 + digitVal c2, rest)] else []) ++
      (if c1 = '0' ∧ isAsciiDigit c2 ∧ c2 ≠ '0' then [(digitVal c2, rest)] else []) ++
      (if isAsciiDigit c1 ∧ c1 ≠ '0' then [(digitVal c1, c2 :: rest)] else [])
  | [c1] =>
      if isAsciiDigit c1 ∧ c1 ≠ '0' then [(digitVal c1, [])] else []
  | [] => []

/-- The year group `\d\d\d\d`, required to end the input. -/
def yearGroup : List Char → Option Nat
  | [c1, c2, c3, c4] =>
      if isPyDigit c1 ∧ isPyDigit c2 ∧ isPyDigit c3 ∧ isPyDigit c4 then
        some (1000 * pyDigitVal c1 + 100 * pyDigitVal c2 + 10 * pyDigitVal c3 + pyDigitVal c4)
      else
        none
  | _ => none

/-- The month group, the second literal dot and the year group. -/
def monthYearPart (cs : List Char) : Option (Nat × Nat) :=
  (monthGroup cs).findSome? fun p =>
    match p.2 with
    | x :: r2 => if x = '.' then (yearGroup r2).map fun y => (p.1, y) else none
    | [] => none

/-- The whole pattern: day group, a literal dot, month group, a literal
dot, year group, end of input.  Yields the captured `(day, month, year)`. -/
def parseDMY (cs : List Char) : Option (Nat × Nat × Nat) :=
  (dayGroup cs).findSome? fun p =>
    match p.2 with
    | x :: r2 => if x = '.' then (monthYearPart r2).map fun q => (p.1, q.1, q.2) else none
    | [] => none

/-- `Birthday.__init__`: `strptime(value, "%d.%m.%Y")`, any `ValueError`
(no regex match, or an impossible date rejected by the `datetime`
constructor) replaced by
`ValueError("Invalid date format. Use DD.MM.YYYY")`. -/
def makeBirthday (s : String) : Except String Birthday :=
  match parseDMY s.data with
  | some (d, m, y) =>
      if isValidDate y m d then
        Except.ok ⟨⟨y, m, d⟩⟩
      else
        Except.error "Invalid date format. Use DD.MM.YYYY"
  | none => Except.error "Invalid date format. Use DD.MM.YYYY"

/-- Decimal digits of a number, most significant first, as characters. -/
def decimalDigits (n : Nat) : List Char :=
  if _small : n < 10 then [digitChar n]
  else decimalDigits (n / 10) ++ [digitChar (n % 10)]
termination_by n
decreasing_by exact Nat.div_lt_self (by omega) (by omega)

/-- Unpadded decimal rendering, the `strftime` conversion `%Y` (glibc
prints the year as a plain decimal number). -/
def natText (n : Nat) : String :=
  ⟨decimalDigits n⟩

/-- Two-digit zero-padded rendering, the `strftime` conversions `%d` and
`%m`. -/
def pad2 (n : Nat) : String :=
  if n < 10 then "0" ++ natText n else natText n

/-- `strftime("%d.%m.%Y")` on the stored date. -/
def dateText (dt : SimpleDate) : String :=
  pad2 dt.day ++ "." ++ pad2 dt.month ++ "." ++ natText dt.year

/-- `class Record`: one name, an ordered phone list, an optional
birthday. -/
structure Record where
  name : Name
  phones : List Phone
  birthday : Option Birthday
deriving DecidableEq, Repr

/-- `Record.__init__(name)`. -/
def Record.create (name : String) : Record :=
  ⟨⟨name⟩, [], none⟩

/-- `Record.add_phone`: validate, then append. -/
def Record.addPhone (r : Record) (s : String) : Except String Record :=
  (makePhone s).map fun p => { r with phones := r.phones ++ [p] }

/-- `Record.remove_phone`: drop every phone with the given raw value. -/
def Record.removePhone (r : Record) (s : String) : Record :=
  { r with phones := r.phones.filter fun p => decide (p.value ≠ s) }

/-- `Record.find_phone`: the first phone with the given raw value. -/
def Record.findPhone (r : Record) (s : String) : Option Phone :=
  r.phones.find? fun p => decide (p.value = s)

/-- `Record.add_birthday`: validate, then overwrite the stored birthday. -/
def Record.addBirthday (r : Record) (s : String) : Except String Record :=
  (makeBirthday s).map fun b => { r with birthday := some b }

/-- The loop of `Record.edit_phone` over the phone list: at the first
entry equal to `old` a new `Phone` is constructed (whose `ValueError`
aborts the loop before any assignment) and written at that position; if
no entry matches, `ValueError("Old phone number not found.")`. -/
def editPhoneList (old new : String) : List Phone → Except String (List Phone)
  | [] => Except.error "Old phone number not found."
  | p :: rest =>
      if p.value = old then
        (makePhone new).map fun q => q :: rest
      else
        (editPhoneList old new rest).map fun ps => p :: ps

/-- `Record.edit_phone` as in-place mutation with exceptions: the result
is the record after the call (unchanged when an exception was raised)
together with the raised message, when any. -/
def Record.editPhone (r : Record) (old new : String) : Record × Option String :=
  match editPhoneList old new r.phones with
  | Except.ok ps => ({ r with phones := ps }, none)
  | Except.error e => (r, some e)

/-- `Record.__str__`. -/
def Record.render (r : Record) : String :=
  "Contact name: " ++ r.name.value ++ ", phones: " ++
  String.intercalate "; " (r.phones.map Phone.value) ++ ", birthday: " ++
  (match r.birthday with
   | some b => dateText b.value
   | none => "No birthday")

/-- `class AddressBook(UserDict)`: a Python `dict` from name to record,
modelled as an association list in insertion order with unique keys. -/
abbrev AddressBook : Type := List (String × Record)

/-- The empty book, `AddressBook()`. -/
def AddressBook.empty : AddressBook := []

/-- `dict` assignment `self.data[record.name.value] = record`: overwrite
in place when the key is present, append otherwise. -/
def AddressBook.addRecord (book : AddressBook) (rec : Record) : AddressBook :=
  if (List.any book fun p => decide (p.1 = rec.name.value)) then
    List.map (fun p => if p.1 = rec.name.value then (p.1, rec) else p) book
  else
    List.append book [(rec.name.value, rec)]

/-- `AddressBook.find`: `self.data.get(name, None)`. -/
def AddressBook.find (book : AddressBook) (name : String) : Option Record :=
  (List.find? (fun p => decide (p.1 = name)) book).map Prod.snd

/-- `AddressBook.delete`: `if name in self.data: del self.data[name]`. -/
def AddressBook.delete (book : AddressBook) (name : String) : AddressBook :=
  if (List.any book fun p => decide (p.1 = name)) then
    List.filter (fun p => decide (p.1 ≠ name)) book
  else
    book

/-- `self.data.values()` in iteration order. -/
def AddressBook.records (book : AddressBook) : List Record :=
  List.map Prod.snd book

/-- The filter of `get_upcoming_birthdays`:
`today <= birthday <= today + timedelta(days=days)` on the projected
date, at date granularity. -/
def inWindow (today : SimpleDate) (days : Nat) (proj : SimpleDate) : Bool :=
  decide (dayNumber today ≤ dayNumber proj) &&
  decide (dayNumber proj ≤ dayNumber today + days)

/-- The loop of `get_upcoming_birthdays` over the records: skip records
without a birthday, project the birthday onto the year of `today`
(propagating the `ValueError` of an impossible projection, which aborts
the whole call), and keep the records whose projection lies in the
window. -/
def upcomingLoop (days : Nat) (today : SimpleDate) :
    List Record → Except String (List Record)
  | [] => Except.ok []
  | r :: rest =>
      match r.birthday with
      | none => upcomingLoop days today rest
      | some b =>
          match replaceYear b.value today.year with
          | Except.error e => Except.error e
          | Except.ok proj =>
              if inWindow today days proj then
                (upcomingLoop days today rest).map fun l => r :: l
              else
                upcomingLoop days today rest

/-- `AddressBook.get_upcoming_birthdays(days=7)`, with the reference
moment `datetime.today()` passed explicitly at date granularity. -/
def AddressBook.getUpcomingBirthdays (book : AddressBook) (days : Nat)
    (today : SimpleDate) : Except String (List Record) :=
  upcomingLoop days today (AddressBook.records book)

/-- Whether one record qualifies for the window: a birthday is set, its
projection onto the reference year is a real date, and the projection
lies within `days` days of the reference, both ends included. -/
def qualifies (today : SimpleDate) (days : Nat) (rec : Record) : Bool :=
  match rec.birthday with
  | none => false
  | some b =>
      match replaceYear b.value today.year with
      | Except.error _ => false
      | Except.ok proj => inWindow today days proj

/-- Directories reachable from the empty book by the collection
operations (`find` reads without mutating, so only `add_record` and
`delete` appear). -/
inductive Reachable : AddressBook → Prop
  | empty : Reachable AddressBook.empty
  | add (book : AddressBook) (rec : Record) :
      Reachable book → Reachable (AddressBook.addRecord book rec)
  | del (book : AddressBook) (name : String) :
      Reachable book → Reachable (AddressBook.delete book name)

/-- Modelled from the spec: the strict textual pattern `DD.MM.YYYY`, a
two-digit day, a two-digit month and a four-digit year separated by
dots, which the spec offers as the exact domain of `makeBirthday`. -/
def specStrictPattern (s : String) : Bool :=
  match s.data with
  | [d1, d2, x1, m1, m2, x2, y1, y2, y3, y4] =>
      isAsciiDigit d1 && isAsciiDigit d2 && decide (x1 = '.') &&
      isAsciiDigit m1 && isAsciiDigit m2 && decide (x2 = '.') &&
      isAsciiDigit y1 && isAsciiDigit y2 && isAsciiDigit y3 && isAsciiDigit y4
  | _ => false

/-- A record holding only a name and a stored birthday, for concrete
scenarios. -/
def bdayRecord (name : String) (d : SimpleDate) : Record :=
  ⟨⟨name⟩, [], some ⟨d⟩⟩

/-! ## Helper lemmas about the birthday scan -/

theorem mem_upcomingLoop (days : Nat) (today : SimpleDate) :
    ∀ (recs : List Record) (l : List Record),
      upcomingLoop days today recs = Except.ok l →
      ∀ rec : Record, (rec ∈ l ↔ rec ∈ recs ∧ qualifies today days rec = true) := by
  intro recs
  induction recs with
  | nil =>
      intro l h rec
      simp only [upcomingLoop, Except.ok.injEq] at h
      subst h
      simp
  | cons r rest ih =>
      intro l h rec
      cases hb : r.birthday with
      | none =>
          simp only [upcomingLoop, hb] at h
          have hiff := ih l h rec
          constructor
          · intro hm
            obtain ⟨h1, h2⟩ := hiff.mp hm
            exact ⟨List.mem_cons_of_mem _ h1, h2⟩
          · rintro ⟨h1, h2⟩
            rcases List.mem_cons.mp h1 with rfl | hm
            · simp [qualifies, hb] at h2
            · exact hiff.mpr ⟨hm, h2⟩
      | some b =>
          cases hr : replaceYear b.value today.year with
          | error e =>
              simp only [upcomingLoop, hb, hr] at h
              exact Except.noConfusion h
          | ok proj =>
              by_cases hw : inWindow today days proj = true
              · cases hrest : upcomingLoop days today rest with
                | error e =>
                    simp only [upcomingLoop, hb, hr, if_pos hw, hrest, Except.map] at h
                    exact Except.noConfusion h
                | ok l2 =>
                    simp only [upcomingLoop, hb, hr, if_pos hw, hrest, Except.map,
                      Except.ok.injEq] at h
                    subst h
                    have hiff := ih l2 hrest rec
                    have hq : qualifies today days r = true := by
                      simp [qualifies, hb, hr, hw]
                    constructor
                    · intro hm
                      rcases List.mem_cons.mp hm with rfl | hm2
                      · exact ⟨List.mem_cons_self _ _, hq⟩
                      · obtain ⟨h1, h2⟩ := hiff.mp hm2
                        exact ⟨List.mem_cons_of_mem _ h1, h2⟩
                    · rintro ⟨h1, h2⟩
                      rcases List.mem_cons.mp h1 with rfl | hm2
                      · exact List.mem_cons_self _ _
                      · exact List.mem_cons_of_mem _ (hiff.mpr ⟨hm2, h2⟩)
              · simp only [upcomingLoop, hb, hr, if_neg hw] at h
                have hiff := ih l h rec
                constructor
                · intro hm
                  obtain ⟨h1, h2⟩ := hiff.mp hm
                  exact ⟨List.mem_cons_of_mem _ h1, h2⟩
                · rintro ⟨h1, h2⟩
                  rcases List.mem_cons.mp h1 with rfl | hm2
                  · exfalso
                    simp [qualifies, hb, hr] at h2
                    exact hw h2
                  · exact hiff.mpr ⟨hm2, h2⟩

theorem upcomingLoop_error (days : Nat) (today : SimpleDate) :
    ∀ (recs : List Record) (rec : Record) (b : Birthday) (e0 : String),
      rec ∈ recs → rec.birthday = some b →
      replaceYear b.value today.year = Except.error e0 →
      ∃ e, upcomingLoop days today recs = Except.error e := by
  intro recs
  induction recs with
  | nil =>
      intro rec b e0 hm
      cases hm
  | cons r rest ih =>
      intro rec b e0 hm hb hr
      rcases List.mem_cons.mp hm with rfl | hm2
      · exact ⟨e0, by simp only [upcomingLoop, hb, hr]⟩
      · obtain ⟨e, he⟩ := ih rec b e0 hm2 hb hr
        cases hb2 : r.birthday with
        | none =>
            exact ⟨e, by simp only [upcomingLoop, hb2]; exact he⟩
        | some b2 =>
            cases hr2 : replaceYear b2.value today.year with
            | error e2 =>
                exact ⟨e2, by simp only [upcomingLoop, hb2, hr2]⟩
            | ok proj =>
                by_cases hw : inWindow today days proj = true
                · refine ⟨e, ?_⟩
                  simp only [upcomingLoop, hb2, hr2, if_pos hw, he, Except.map]
                · refine ⟨e, ?_⟩
                  simp only [upcomingLoop, hb2, hr2, if_neg hw]
                  exact he

/-! ## Helper lemmas about phone editing -/

theorem editPhoneList_notFound (old new : String) :
    ∀ ps : List Phone, (∀ p ∈ ps, p.value ≠ old) →
      editPhoneList old new ps = Except.error "Old phone number not found." := by
  intro ps
  induction ps with
  | nil => intro _; rfl
  | cons p rest ih =>
      intro h
      have hp : ¬ p.value = old := h p (List.mem_cons_self _ _)
      rw [editPhoneList, if_neg hp, ih (fun q hq => h q (List.mem_cons_of_mem _ hq))]
      rfl

theorem editPhoneList_badNew (old new msg : String) (hn : makePhone new = Except.error msg) :
    ∀ ps : List Phone, (∃ p ∈ ps, p.value = old) →
      editPhoneList old new ps = Except.error msg := by
  intro ps
  induction ps with
  | nil =>
      rintro ⟨p, hp, -⟩
      cases hp
  | cons p rest ih =>
      rintro ⟨q, hq, hqv⟩
      by_cases hp : p.value = old
      · rw [editPhoneList, if_pos hp, hn]
        rfl
      · have hex : ∃ q ∈ rest, q.value = old := by
          rcases List.mem_cons.mp hq with rfl | hm
          · exact absurd hqv hp
          · exact ⟨q, hm, hqv⟩
        rw [editPhoneList, if_neg hp, ih hex]
        rfl

/-! ## Claims about the birthday scan -/

/-- C1 counterexample: from reference 2024-06-01 with a 7-day window the
code excludes a record with birthday 09.06.1990 (the projection
2024-06-09 lies one day past 2024-06-08, the reference plus seven days),
while the claim asserts it is included as the day-7 boundary. -/
theorem upcoming_june9_excluded :
    AddressBook.getUpcomingBirthdays
        [("Alice", bdayRecord "Alice" ⟨1990, 6, 9⟩)] 7 ⟨2024, 6, 1⟩
      = Except.ok [] := by
  rfl

/-- C1 (amended): whenever the scan completes, a record is in the result
exactly when it is a stored record with a set birthday whose projection
onto the reference year is a real date lying in the inclusive window
from the reference date to the reference date plus the window length in
days; with a 7-day window and reference 2024-06-01, birthdays 05.06.1990
and 08.06.1990 (the inclusive boundary) are returned while 09.06.1990 and
10.06.1990 are not. -/
theorem upcoming_window_amended :
    (∀ (book : AddressBook) (days : Nat) (today : SimpleDate) (l : List Record),
        AddressBook.getUpcomingBirthdays book days today = Except.ok l →
        ∀ rec : Record,
          (rec ∈ l ↔ rec ∈ AddressBook.records book ∧ qualifies today days rec = true))
    ∧ AddressBook.getUpcomingBirthdays
        [("Alice", bdayRecord "Alice" ⟨1990, 6, 5⟩)] 7 ⟨2024, 6, 1⟩
        = Except.ok [bdayRecord "Alice" ⟨1990, 6, 5⟩]
    ∧ AddressBook.getUpcomingBirthdays
        [("Alice", bdayRecord "Alice" ⟨1990, 6, 8⟩)] 7 ⟨2024, 6, 1⟩
        = Except.ok [bdayRecord "Alice" ⟨1990, 6, 8⟩]
    ∧ AddressBook.getUpcomingBirthdays
        [("Alice", bdayRecord "Alice" ⟨1990, 6, 9⟩)] 7 ⟨2024, 6, 1⟩
        = Except.ok []
    ∧ AddressBook.getUpcomingBirthdays
        [("Alice", bdayRecord "Alice" ⟨1990, 6, 10⟩)] 7 ⟨2024, 6, 1⟩
        = Except.ok [] := by
  refine ⟨?_, by rfl, by rfl, by rfl, by rfl⟩
  intro book days today l h rec
  exact mem_upcomingLoop days today (AddressBook.records book) l h rec

/-- C1 witness: the membership characterization applied to the concrete
one-record directory with birthday 05.06.1990 and reference 2024-06-01. -/
theorem upcoming_window_amended_witness :
    bdayRecord "Alice" ⟨1990, 6, 5⟩ ∈ [bdayRecord "Alice" ⟨1990, 6, 5⟩] ↔
      bdayRecord "Alice" ⟨1990, 6, 5⟩
          ∈ AddressBook.records [("Alice", bdayRecord "Alice" ⟨1990, 6, 5⟩)]
        ∧ qualifies ⟨2024, 6, 1⟩ 7 (bdayRecord "Alice" ⟨1990, 6, 5⟩) = true :=
  upcoming_window_amended.1
    [("Alice", bdayRecord "Alice" ⟨1990, 6, 5⟩)] 7 ⟨2024, 6, 1⟩
    [bdayRecord "Alice" ⟨1990, 6, 5⟩] (by rfl) (bdayRecord "Alice" ⟨1990, 6, 5⟩)

/-- C2: the projection always uses the year of the reference date, so a
record whose projected birthday falls strictly before the reference date
is never returned, even when the birthday lies within the window counted
into the next year; in particular a Jan-2 birthday is invisible from a
Dec-30 reference with a 7-day window. -/
theorem upcoming_no_rollover :
    (∀ (book : AddressBook) (days : Nat) (today : SimpleDate) (l : List Record)
        (rec : Record) (b : Birthday) (proj : SimpleDate),
        AddressBook.getUpcomingBirthdays book days today = Except.ok l →
        rec.birthday = some b →
        replaceYear b.value today.year = Except.ok proj →
        dayNumber proj < dayNumber today →
        rec ∉ l)
    ∧ AddressBook.getUpcomingBirthdays
        [("Ann", bdayRecord "Ann" ⟨1990, 1, 2⟩)] 7 ⟨2024, 12, 30⟩
        = Except.ok [] := by
  refine ⟨?_, by rfl⟩
  intro book days today l rec b proj h hb hr hlt hmem
  have hq := ((mem_upcomingLoop days today (AddressBook.records book) l h rec).mp hmem).2
  simp only [qualifies, hb, hr, inWindow, Bool.and_eq_true, decide_eq_true_eq] at hq
  omega

/-- C2 witness: the no-rollover statement applied to the concrete Jan-2
birthday seen from the Dec-30 reference. -/
theorem upcoming_no_rollover_witness :
    bdayRecord "Ann" ⟨1990, 1, 2⟩ ∉ ([] : List Record) :=
  upcoming_no_rollover.1
    [("Ann", bdayRecord "Ann" ⟨1990, 1, 2⟩)] 7 ⟨2024, 12, 30⟩ []
    (bdayRecord "Ann" ⟨1990, 1, 2⟩) ⟨⟨1990, 1, 2⟩⟩ ⟨2024, 1, 2⟩
    (by rfl) (by rfl) (by rfl) (by decide)

/-- C3: a stored Feb-29 birthday makes the scan raise during the year
projection whenever the reference year is not a leap year, because
`replace(year := y)` revalidates the triple and Feb-29 does not exist in
such a year; no result is returned. -/
theorem upcoming_feb29_error :
    ∀ (book : AddressBook) (days : Nat) (today : SimpleDate) (rec : Record) (b : Birthday),
      rec ∈ AddressBook.records book → rec.birthday = some b →
      b.value.month = 2 → b.value.day = 29 → isLeap today.year = false →
      ∃ e, AddressBook.getUpcomingBirthdays book days today = Except.error e := by
  intro book days today rec b hm hb hmon hday hleap
  have hrep : replaceYear b.value today.year
      = Except.error "day is out of range for month" := by
    have hval : isValidDate today.year b.value.month b.value.day = false := by
      simp only [isValidDate, daysInMonth, hmon, hday, hleap, if_pos, if_true, if_false]
      simp
    simp only [replaceYear, hval]
    simp
  exact upcomingLoop_error days today (AddressBook.records book) rec b _ hm hb hrep

/-- C3 witness: a concrete directory holding a Feb-29 birthday scanned
from a reference date in the non-leap year 2023. -/
theorem upcoming_feb29_error_witness :
    ∃ e, AddressBook.getUpcomingBirthdays
        [("Leap", bdayRecord "Leap" ⟨1992, 2, 29⟩)] 7 ⟨2023, 6, 1⟩
      = Except.error e :=
  upcoming_feb29_error
    [("Leap", bdayRecord "Leap" ⟨1992, 2, 29⟩)] 7 ⟨2023, 6, 1⟩
    (bdayRecord "Leap" ⟨1992, 2, 29⟩) ⟨⟨1992, 2, 29⟩⟩
    (by decide) (by rfl) (by rfl) (by rfl) (by rfl)

/-- C9: the scan is all-or-nothing: as soon as any stored record has a
birthday whose projection onto the reference year fails, the whole call
returns that error and no list of records at all, whatever the other
records are and wherever the failing record sits in the directory. -/
theorem upcoming_allOrNothing :
    ∀ (book : AddressBook) (days : Nat) (today : SimpleDate) (rec : Record)
      (b : Birthday) (e0 : String),
      rec ∈ AddressBook.records book → rec.birthday = some b →
      replaceYear b.value today.year = Except.error e0 →
      ∃ e, AddressBook.getUpcomingBirthdays book days today = Except.error e := by
  intro book days today rec b e0 hm hb hr
  exact upcomingLoop_error days today (AddressBook.records book) rec b e0 hm hb hr

/-- C9 witness: a qualifying record placed before a failing Feb-29 record
is still not returned: the whole scan errors. -/
theorem upcoming_allOrNothing_witness :
    ∃ e, AddressBook.getUpcomingBirthdays
        [("Alice", bdayRecord "Alice" ⟨1990, 6, 5⟩),
         ("Leap", bdayRecord "Leap" ⟨1992, 2, 29⟩)] 7 ⟨2023, 6, 1⟩
      = Except.error e :=
  upcoming_allOrNothing
    [("Alice", bdayRecord "Alice" ⟨1990, 6, 5⟩),
     ("Leap", bdayRecord "Leap" ⟨1992, 2, 29⟩)] 7 ⟨2023, 6, 1⟩
    (bdayRecord "Leap" ⟨1992, 2, 29⟩) ⟨⟨1992, 2, 29⟩⟩ "day is out of range for month"
    (by decide) (by rfl) (by rfl)

/-! ## Claims about phone editing -/

/-- C6: when no stored phone equals the old value, `edit_phone` raises
`ValueError("Old phone number not found.")` after scanning the whole
list, and the record, in particular its phone sequence, is exactly as
before the call. -/
theorem editPhone_notFound_spec :
    ∀ (r : Record) (old new : String),
      (∀ p ∈ r.phones, p.value ≠ old) →
      Record.editPhone r old new = (r, some "Old phone number not found.") := by
  intro r old new h
  unfold Record.editPhone
  rw [editPhoneList_notFound old new r.phones h]

/-- C6 witness: editing a phone absent from a concrete two-phone record
fails with the fixed message and returns the record unchanged. -/
theorem editPhone_notFound_spec_witness :
    Record.editPhone ⟨⟨"Bob"⟩, [⟨"0123456789"⟩, ⟨"5550001111"⟩], none⟩ "9999999999" "0000000000"
      = (⟨⟨"Bob"⟩, [⟨"0123456789"⟩, ⟨"5550001111"⟩], none⟩, some "Old phone number not found.") :=
  editPhone_notFound_spec ⟨⟨"Bob"⟩, [⟨"0123456789"⟩, ⟨"5550001111"⟩], none⟩
    "9999999999" "0000000000" (by decide)

/-- C7: when some stored phone equals the old value but the replacement
text is rejected by the phone validator, `edit_phone` raises the phone
validation error before any assignment, so the phone sequence is exactly
as before the call: no partial replacement happens. -/
theorem editPhone_invalidNew_spec :
    ∀ (r : Record) (old new : String) (p : Phone),
      p ∈ r.phones → p.value = old →
      makePhone new = Except.error "Phone number must be 10 digits." →
      Record.editPhone r old new = (r, some "Phone number must be 10 digits.") := by
  intro r old new p hp hpv hn
  unfold Record.editPhone
  rw [editPhoneList_badNew old new _ hn r.phones ⟨p, hp, hpv⟩]

/-- C7 witness: replacing a present phone by the five-character text
12345 fails with the validation message and leaves the record unchanged. -/
theorem editPhone_invalidNew_spec_witness :
    Record.editPhone ⟨⟨"Bob"⟩, [⟨"0123456789"⟩], none⟩ "0123456789" "12345"
      = (⟨⟨"Bob"⟩, [⟨"0123456789"⟩], none⟩, some "Phone number must be 10 digits.") :=
  editPhone_invalidNew_spec ⟨⟨"Bob"⟩, [⟨"0123456789"⟩], none⟩ "0123456789" "12345"
    ⟨"0123456789"⟩ (by decide) (by rfl) (by rfl)

/-! ## Claims about the directory -/

/-- C8: every directory reachable from the empty one by `add_record` and
`delete` (`find` does not mutate) stores each record under the key equal
to the value of its name field. -/
theorem addressBook_key_invariant :
    ∀ book : AddressBook, Reachable book → ∀ p ∈ book, p.2.name.value = p.1 := by
  intro book h
  induction h with
  | empty =>
      intro p hp
      cases hp
  | add book0 rec _ ih =>
      intro p hp
      unfold AddressBook.addRecord at hp
      by_cases hc : (List.any book0 fun q => decide (q.1 = rec.name.value)) = true
      · rw [if_pos hc] at hp
        obtain ⟨q, hq, rfl⟩ := List.mem_map.mp hp
        by_cases hqk : q.1 = rec.name.value
        · simp only [if_pos hqk]
          exact hqk.symm
        · simp only [if_neg hqk]
          exact ih q hq
      · rw [if_neg hc] at hp
        rcases List.mem_append.mp hp with hm | hm
        · exact ih p hm
        · have : p = (rec.name.value, rec) := by simpa using hm
          subst this
          rfl
  | del book0 name _ ih =>
      intro p hp
      unfold AddressBook.delete at hp
      by_cases hc : (List.any book0 fun q => decide (q.1 = name)) = true
      · rw [if_pos hc] at hp
        exact ih p (List.mem_filter.mp hp).1
      · rw [if_neg hc] at hp
        exact ih p hp

/-- C8 witness: the invariant read off the directory obtained by adding
one record to the empty book. -/
theorem addressBook_key_invariant_witness :
    ("Bob", Record.create "Bob").2.name.value = ("Bob", Record.create "Bob").1 :=
  addressBook_key_invariant
    (AddressBook.addRecord AddressBook.empty (Record.create "Bob"))
    (Reachable.add AddressBook.empty (Record.create "Bob") Reachable.empty)
    ("Bob", Record.create "Bob") (by decide)

/-- Exactly one entry carries the deleted key when the keys are unique,
so filtering it out shortens the directory by one. -/
theorem filter_ne_length (name : String) :
    ∀ book : AddressBook, (book.map Prod.fst).Nodup → name ∈ book.map Prod.fst →
      (List.filter (fun p => decide (p.1 ≠ name)) book).length + 1 = book.length := by
  intro book
  induction book with
  | nil =>
      intro _ hm
      cases hm
  | cons q rest ih =>
      intro hnd hm
      simp only [List.map_cons, List.nodup_cons] at hnd
      by_cases hq : q.1 = name
      · have hall : ∀ p ∈ rest, (fun p => decide ((p : String × Record).1 ≠ name)) p = true := by
          intro p hp
          refine decide_eq_true ?_
          intro hcon
          exact hnd.1 (List.mem_map.mpr ⟨p, hp, by rw [hcon, ← hq]⟩)
        have hcond : ¬ ((decide (q.1 ≠ name)) = true) := by simp [hq]
        rw [List.filter_cons, if_neg hcond, List.filter_eq_self.mpr hall]
        simp
      · have hm2 : name ∈ rest.map Prod.fst := by
          rcases List.mem_cons.mp hm with heq | hm2
          · exact absurd heq.symm hq
          · exact hm2
        have hcond : (decide (q.1 ≠ name)) = true := by simp [hq]
        rw [List.filter_cons, if_pos hcond]
        simp only [List.length_cons]
        have := ih hnd.2 hm2
        omega

/-- C10: deleting an absent name leaves the directory exactly as it was,
with no error; deleting a present name removes exactly the entry under
that key, keeping every other entry. -/
theorem delete_spec :
    ∀ (book : AddressBook) (name : String),
      (name ∉ book.map Prod.fst → AddressBook.delete book name = book)
      ∧ ((book.map Prod.fst).Nodup → name ∈ book.map Prod.fst →
          (AddressBook.delete book name).length + 1 = book.length
          ∧ ∀ p, p ∈ AddressBook.delete book name ↔ p ∈ book ∧ p.1 ≠ name) := by
  intro book name
  constructor
  · intro hni
    unfold AddressBook.delete
    have hc : ¬ ((List.any book fun p => decide (p.1 = name)) = true) := by
      simp only [List.any_eq_true, decide_eq_true_eq]
      rintro ⟨p, hp, he⟩
      exact hni (List.mem_map.mpr ⟨p, hp, he⟩)
    rw [if_neg hc]
  · intro hnd hm
    have hc : (List.any book fun p => decide (p.1 = name)) = true := by
      simp only [List.any_eq_true, decide_eq_true_eq]
      obtain ⟨p, hp, he⟩ := List.mem_map.mp hm
      exact ⟨p, hp, he⟩
    unfold AddressBook.delete
    rw [if_pos hc]
    refine ⟨filter_ne_length name book hnd hm, ?_⟩
    intro p
    simp [List.mem_filter]

/-- C10 witness: on the one-entry directory, deleting the absent key Bob
changes nothing and deleting the present key Alice shrinks it by one. -/
theorem delete_spec_witness :
    (AddressBook.delete [("Alice", Record.create "Alice")] "Bob"
        = [("Alice", Record.create "Alice")])
    ∧ (AddressBook.delete [("Alice", Record.create "Alice")] "Alice").length + 1
        = ([("Alice", Record.create "Alice")] : AddressBook).length :=
  ⟨(delete_spec [("Alice", Record.create "Alice")] "Bob").1 (by decide),
   ((delete_spec [("Alice", Record.create "Alice")] "Alice").2 (by decide) (by decide)).1⟩

/-! ## Claims about phone validation -/

/-- Below code point 128 the only Unicode decimal digits are the ASCII
digits 48 to 57. -/
theorem isPyDigit_ascii_iff (c : Char) (h : c.toNat < 128) :
    isPyDigit c = true ↔ (48 ≤ c.toNat ∧ c.toNat ≤ 57) := by
  simp only [isPyDigit, ndDecadeStarts, List.any_cons, List.any_nil,
    Bool.or_eq_true, Bool.and_eq_true, decide_eq_true_eq, Bool.false_eq_true, or_false]
  omega

/-- C4 counterexample: the code validates with the Unicode-aware regex
class of digits, so the ten fullwidth digits are accepted although the
text does not consist of ASCII decimal digits, contradicting the claimed
equivalence with the ASCII-only pattern. -/
theorem makePhone_unicode_digits_accepted :
    makePhone "１２３４５６７８９０" = Except.ok ⟨"１２３４５６７８９０"⟩
    ∧ ("１２３４５６７８９０".data.all isAsciiDigit) = false := by
  exact ⟨by rfl, by rfl⟩

/-- C4 (amended): `makePhone` succeeds, returning the exact input string,
precisely when the text is ten Unicode decimal digits; restricted to
ASCII text this is exactly the claimed ten-ASCII-digit criterion; every
failure carries the fixed message. -/
theorem makePhone_spec_amended :
    ∀ s : String,
      ((∃ p, makePhone s = Except.ok p ∧ p.value = s) ↔
        (s.data.length = 10 ∧ ∀ c ∈ s.data, isPyDigit c = true))
      ∧ ((∀ c ∈ s.data, c.toNat < 128) →
          ((∃ p, makePhone s = Except.ok p ∧ p.value = s) ↔
            (s.data.length = 10 ∧ ∀ c ∈ s.data, 48 ≤ c.toNat ∧ c.toNat ≤ 57)))
      ∧ (¬ (s.data.length = 10 ∧ ∀ c ∈ s.data, isPyDigit c = true) →
          makePhone s = Except.error "Phone number must be 10 digits.") := by
  intro s
  by_cases hc : (s.data.length == 10 && s.data.all isPyDigit) = true
  · have hprop : s.data.length = 10 ∧ ∀ c ∈ s.data, isPyDigit c = true := by
      simpa [List.all_eq_true] using hc
    have hok : makePhone s = Except.ok ⟨s⟩ := by
      rw [makePhone, if_pos hc]
    refine ⟨⟨fun _ => hprop, fun _ => ⟨⟨s⟩, hok, rfl⟩⟩, ?_, fun hneg => absurd hprop hneg⟩
    intro hascii
    constructor
    · intro _
      refine ⟨hprop.1, fun c hcm => ?_⟩
      exact (isPyDigit_ascii_iff c (hascii c hcm)).mp (hprop.2 c hcm)
    · intro _
      exact ⟨⟨s⟩, hok, rfl⟩
  · have herr : makePhone s = Except.error "Phone number must be 10 digits." := by
      rw [makePhone, if_neg hc]
    have hnprop : ¬ (s.data.length = 10 ∧ ∀ c ∈ s.data, isPyDigit c = true) := by
      intro hp
      have hall : s.data.all isPyDigit = true := List.all_eq_true.mpr hp.2
      exact hc (by simp [hp.1, hall])
    refine ⟨?_, ?_, fun _ => herr⟩
    · constructor
      · rintro ⟨p, hp, -⟩
        rw [herr] at hp
        exact Except.noConfusion hp
      · intro hp
        exact absurd hp hnprop
    · intro hascii
      constructor
      · rintro ⟨p, hp, -⟩
        rw [herr] at hp
        exact Except.noConfusion hp
      · rintro ⟨hlen, hdig⟩
        refine absurd ⟨hlen, fun c hcm => ?_⟩ hnprop
        exact (isPyDigit_ascii_iff c (hascii c hcm)).mpr (hdig c hcm)

/-- C4 witness: the characterization applied to the ASCII input
0123456789, which is accepted and round-trips, and to the short input
123, which fails with the fixed message. -/
theorem makePhone_spec_amended_witness :
    (∃ p, makePhone "0123456789" = Except.ok p ∧ p.value = "0123456789")
    ∧ makePhone "123" = Except.error "Phone number must be 10 digits." :=
  ⟨(makePhone_spec_amended "0123456789").1.mpr (by decide),
   (makePhone_spec_amended "123").2.2 (by decide)⟩

/-! ## Digit-character lemmas -/

theorem digitChar_toNat (n : Nat) (h : n ≤ 9) : (digitChar n).toNat = 48 + n := by
  interval_cases n <;> rfl

theorem isAsciiDigit_digitChar (n : Nat) (h : n ≤ 9) : isAsciiDigit (digitChar n) = true := by
  interval_cases n <;> decide

theorem isPyDigit_digitChar (n : Nat) (h : n ≤ 9) : isPyDigit (digitChar n) = true := by
  interval_cases n <;> decide

theorem digitVal_digitChar (n : Nat) (h : n ≤ 9) : digitVal (digitChar n) = n := by
  interval_cases n <;> rfl

theorem pyDigitVal_digitChar (n : Nat) (h : n ≤ 9) : pyDigitVal (digitChar n) = n := by
  interval_cases n <;> rfl

/-! ## Parsing the strict two-digit pattern -/

theorem dayGroup_parse (a b : Nat) (ha : a ≤ 9) (hb : b ≤ 9)
    (h1 : 1 ≤ 10 * a + b) (h2 : 10 * a + b ≤ 31) (r : List Char) :
    parseDMY (digitChar a :: digitChar b :: '.' :: r)
      = (monthYearPart r).map fun q => (10 * a + b, q.1, q.2) := by
  interval_cases a <;> interval_cases b <;>
    first
      | omega
      | (cases hmp : monthYearPart r <;>
          simp [parseDMY, dayGroup, List.findSome?, hmp, digitChar, digitVal, pyDigitVal] <;>
          try decide)

theorem monthGroup_parse (c d : Nat) (hc : c ≤ 9) (hd : d ≤ 9)
    (h1 : 1 ≤ 10 * c + d) (h2 : 10 * c + d ≤ 12) (r : List Char) :
    monthYearPart (digitChar c :: digitChar d :: '.' :: r)
      = (yearGroup r).map fun y => (10 * c + d, y) := by
  interval_cases c <;> interval_cases d <;>
    first
      | omega
      | (cases hy : yearGroup r <;>
          simp [monthYearPart, monthGroup, List.findSome?, hy, digitChar, digitVal, pyDigitVal])

theorem yearGroup_digits (e f g k : Nat) (he : e ≤ 9) (hf : f ≤ 9) (hg : g ≤ 9) (hk : k ≤ 9) :
    yearGroup [digitChar e, digitChar f, digitChar g, digitChar k]
      = some (1000 * e + 100 * f + 10 * g + k) := by
  simp only [yearGroup]
  rw [if_pos ⟨isPyDigit_digitChar e he, isPyDigit_digitChar f hf,
      isPyDigit_digitChar g hg, isPyDigit_digitChar k hk⟩]
  rw [pyDigitVal_digitChar e he, pyDigitVal_digitChar f hf,
      pyDigitVal_digitChar g hg, pyDigitVal_digitChar k hk]

theorem parseDMY_strict (a b c d e f g k : Nat)
    (ha : a ≤ 9) (hb : b ≤ 9) (hc : c ≤ 9) (hd : d ≤ 9)
    (he : e ≤ 9) (hf : f ≤ 9) (hg : g ≤ 9) (hk : k ≤ 9)
    (hday1 : 1 ≤ 10 * a + b) (hday2 : 10 * a + b ≤ 31)
    (hmon1 : 1 ≤ 10 * c + d) (hmon2 : 10 * c + d ≤ 12) :
    parseDMY [digitChar a, digitChar b, '.', digitChar c, digitChar d, '.',
        digitChar e, digitChar f, digitChar g, digitChar k]
      = some (10 * a + b, 10 * c + d, 1000 * e + 100 * f + 10 * g + k) := by
  rw [show [digitChar a, digitChar b, '.', digitChar c, digitChar d, '.',
        digitChar e, digitChar f, digitChar g, digitChar k]
      = digitChar a :: digitChar b :: '.' ::
          (digitChar c :: digitChar d :: '.' ::
            [digitChar e, digitChar f, digitChar g, digitChar k]) from rfl]
  rw [dayGroup_parse a b ha hb hday1 hday2]
  rw [monthGroup_parse c d hc hd hmon1 hmon2]
  rw [yearGroup_digits e f g k he hf hg hk]
  rfl

/-! ## Rendering lemmas -/

theorem daysInMonth_le_31 (y m : Nat) : daysInMonth y m ≤ 31 := by
  unfold daysInMonth
  split
  · split <;> omega
  · split <;> omega

theorem decimalDigits_small (n : Nat) (h : n < 10) : decimalDigits n = [digitChar n] := by
  conv_lhs => rw [decimalDigits]
  rw [dif_pos h]

theorem decimalDigits_big (n : Nat) (h : 10 ≤ n) :
    decimalDigits n = decimalDigits (n / 10) ++ [digitChar (n % 10)] := by
  conv_lhs => rw [decimalDigits]
  rw [dif_neg (by omega)]

theorem natText_two (a b : Nat) (ha1 : 1 ≤ a) (ha : a ≤ 9) (hb : b ≤ 9) :
    natText (10 * a + b) = ⟨[digitChar a, digitChar b]⟩ := by
  unfold natText
  rw [decimalDigits_big _ (by omega)]
  have h1 : (10 * a + b) / 10 = a := by omega
  have h2 : (10 * a + b) % 10 = b := by omega
  rw [h1, h2, decimalDigits_small a (by omega)]
  rfl

theorem natText_four (e f g k : Nat) (he1 : 1 ≤ e) (he : e ≤ 9) (hf : f ≤ 9)
    (hg : g ≤ 9) (hk : k ≤ 9) :
    natText (1000 * e + 100 * f + 10 * g + k)
      = ⟨[digitChar e, digitChar f, digitChar g, digitChar k]⟩ := by
  unfold natText
  rw [decimalDigits_big _ (by omega)]
  have d1 : (1000 * e + 100 * f + 10 * g + k) / 10 = 100 * e + 10 * f + g := by omega
  have m1 : (1000 * e + 100 * f + 10 * g + k) % 10 = k := by omega
  rw [d1, m1, decimalDigits_big _ (by omega)]
  have d2 : (100 * e + 10 * f + g) / 10 = 10 * e + f := by omega
  have m2 : (100 * e + 10 * f + g) % 10 = g := by omega
  rw [d2, m2, decimalDigits_big _ (by omega)]
  have d3 : (10 * e + f) / 10 = e := by omega
  have m3 : (10 * e + f) % 10 = f := by omega
  rw [d3, m3, decimalDigits_small e (by omega)]
  rfl

theorem pad2_digits (a b : Nat) (ha : a ≤ 9) (hb : b ≤ 9) :
    pad2 (10 * a + b) = ⟨[digitChar a, digitChar b]⟩ := by
  by_cases h0 : a = 0
  · subst h0
    have hv : 10 * 0 + b = b := by omega
    rw [hv]
    unfold pad2
    rw [if_pos (by omega)]
    unfold natText
    rw [decimalDigits_small b (by omega)]
    rfl
  · unfold pad2
    rw [if_neg (by omega)]
    exact natText_two a b (by omega) ha hb

theorem dateText_digits (a b c d e f g k : Nat)
    (ha : a ≤ 9) (hb : b ≤ 9) (hc : c ≤ 9) (hd : d ≤ 9)
    (he1 : 1 ≤ e) (he : e ≤ 9) (hf : f ≤ 9) (hg : g ≤ 9) (hk : k ≤ 9) :
    dateText ⟨1000 * e + 100 * f + 10 * g + k, 10 * c + d, 10 * a + b⟩
      = ⟨[digitChar a, digitChar b, '.', digitChar c, digitChar d, '.',
          digitChar e, digitChar f, digitChar g, digitChar k]⟩ := by
  unfold dateText
  rw [show (SimpleDate.mk (1000 * e + 100 * f + 10 * g + k) (10 * c + d) (10 * a + b)).day
      = 10 * a + b from rfl]
  rw [show (SimpleDate.mk (1000 * e + 100 * f + 10 * g + k) (10 * c + d) (10 * a + b)).month
      = 10 * c + d from rfl]
  rw [show (SimpleDate.mk (1000 * e + 100 * f + 10 * g + k) (10 * c + d) (10 * a + b)).year
      = 1000 * e + 100 * f + 10 * g + k from rfl]
  rw [pad2_digits a b ha hb, pad2_digits c d hc hd, natText_four e f g k he1 he hf hg hk]
  rfl

/-! ## Claims about birthday parsing -/

/-- C5 counterexample: `strptime` accepts unpadded day and month, so the
text 5.6.1990, which does not match the strict two-digit DD.MM.YYYY
pattern, is parsed successfully instead of failing as the claim
requires. -/
theorem makeBirthday_lenient_parse :
    makeBirthday "5.6.1990" = Except.ok ⟨⟨1990, 6, 5⟩⟩
    ∧ specStrictPattern "5.6.1990" = false := by
  exact ⟨by rfl, by rfl⟩

/-- C5 (amended): on every text that matches the strict DD.MM.YYYY
pattern with a four-digit year of at least 1000 and denotes a real
calendar date, `makeBirthday` succeeds with exactly that date and
re-rendering the stored date with `strftime` reproduces the input text
exactly; every failure of `makeBirthday` carries the fixed message; but
the parser is lenient, also accepting unpadded day and month (see the
counterexample), so acceptance is not limited to the strict pattern. -/
theorem makeBirthday_roundtrip_amended :
    (∀ a b c d e f g k : Nat,
      a ≤ 9 → b ≤ 9 → c ≤ 9 → d ≤ 9 → e ≤ 9 → f ≤ 9 → g ≤ 9 → k ≤ 9 →
      1 ≤ e →
      isValidDate (1000 * e + 100 * f + 10 * g + k) (10 * c + d) (10 * a + b) = true →
      specStrictPattern ⟨[digitChar a, digitChar b, '.', digitChar c, digitChar d, '.',
          digitChar e, digitChar f, digitChar g, digitChar k]⟩ = true
      ∧ makeBirthday ⟨[digitChar a, digitChar b, '.', digitChar c, digitChar d, '.',
          digitChar e, digitChar f, digitChar g, digitChar k]⟩
          = Except.ok ⟨⟨1000 * e + 100 * f + 10 * g + k, 10 * c + d, 10 * a + b⟩⟩
      ∧ dateText ⟨1000 * e + 100 * f + 10 * g + k, 10 * c + d, 10 * a + b⟩
          = ⟨[digitChar a, digitChar b, '.', digitChar c, digitChar d, '.',
              digitChar e, digitChar f, digitChar g, digitChar k]⟩)
    ∧ (∀ s msg, makeBirthday s = Except.error msg →
        msg = "Invalid date format. Use DD.MM.YYYY") := by
  constructor
  · intro a b c d e f g k ha hb hc hd he hf hg hk he1 hval
    have hD := daysInMonth_le_31 (1000 * e + 100 * f + 10 * g + k) (10 * c + d)
    have hval2 := hval
    simp only [isValidDate, Bool.and_eq_true, decide_eq_true_eq] at hval2
    obtain ⟨⟨⟨⟨⟨hy1, hy2⟩, hm1⟩, hm2⟩, hd1⟩, hd2⟩ := hval2
    have hdata : (⟨[digitChar a, digitChar b, '.', digitChar c, digitChar d, '.',
        digitChar e, digitChar f, digitChar g, digitChar k]⟩ : String).data
        = [digitChar a, digitChar b, '.', digitChar c, digitChar d, '.',
            digitChar e, digitChar f, digitChar g, digitChar k] := rfl
    have hparse := parseDMY_strict a b c d e f g k ha hb hc hd he hf hg hk
      hd1 (le_trans hd2 hD) hm1 hm2
    refine ⟨?_, ?_, ?_⟩
    · simp only [specStrictPattern, hdata]
      simp [isAsciiDigit_digitChar a ha, isAsciiDigit_digitChar b hb,
        isAsciiDigit_digitChar c hc, isAsciiDigit_digitChar d hd,
        isAsciiDigit_digitChar e he, isAsciiDigit_digitChar f hf,
        isAsciiDigit_digitChar g hg, isAsciiDigit_digitChar k hk]
    · simp only [makeBirthday, hdata, hparse]
      rw [if_pos hval]
    · exact dateText_digits a b c d e f g k ha hb hc hd he1 he hf hg hk
  · intro s msg hmsg
    cases hp : parseDMY s.data with
    | none =>
        simp only [makeBirthday, hp] at hmsg
        injection hmsg with h2
        exact h2.symm
    | some t =>
        obtain ⟨dv, mv, yv⟩ := t
        by_cases hv : isValidDate yv mv dv = true
        · simp only [makeBirthday, hp, if_pos hv] at hmsg
          exact Except.noConfusion hmsg
        · simp only [makeBirthday, hp, if_neg hv] at hmsg
          injection hmsg with h2
          exact h2.symm

/-- C5 witness: the round-trip statement applied to the digits of
05.06.1990, and the error-message statement applied to the impossible
date 31.02.2024. -/
theorem makeBirthday_roundtrip_amended_witness :
    (specStrictPattern ⟨[digitChar 0, digitChar 5, '.', digitChar 0, digitChar 6, '.',
        digitChar 1, digitChar 9, digitChar 9, digitChar 0]⟩ = true
      ∧ makeBirthday ⟨[digitChar 0, digitChar 5, '.', digitChar 0, digitChar 6, '.',
          digitChar 1, digitChar 9, digitChar 9, digitChar 0]⟩
          = Except.ok ⟨⟨1000 * 1 + 100 * 9 + 10 * 9 + 0, 10 * 0 + 6, 10 * 0 + 5⟩⟩
      ∧ dateText ⟨1000 * 1 + 100 * 9 + 10 * 9 + 0, 10 * 0 + 6, 10 * 0 + 5⟩
          = ⟨[digitChar 0, digitChar 5, '.', digitChar 0, digitChar 6, '.',
              digitChar 1, digitChar 9, digitChar 9, digitChar 0]⟩)
    ∧ "Invalid date format. Use DD.MM.YYYY" = "Invalid date format. Use DD.MM.YYYY" :=
  ⟨makeBirthday_roundtrip_amended.1 0 5 0 6 1 9 9 0
      (by decide) (by decide) (by decide) (by decide) (by decide) (by decide)
      (by decide) (by decide) (by decide) (by decide),
   makeBirthday_roundtrip_amended.2 "31.02.2024" _ (by rfl)⟩
